import Mathlib

/-!
Verification development for the dual-variant storefront simulator
(`src/1.cpp`, the textual-log variant, and `src/tempCodeRunnerFile.cpp`,
the in-memory variant).

The embedding follows the C++ source:
* machine `double` prices are modelled as rationals (ℚ);
* `std::string` values handled by the log reader are modelled as `List Char`,
  with `std::string::find` / `substr` modelled faithfully including the
  `size_t` wrap-around of `npos` arithmetic;
* exceptions are modelled as `Except` / explicit error results;
* the mutable singleton cart and the global order store become explicit
  state records passed through the operations.
-/

/-- Error kinds of the exception hierarchy rooted at `ECommerceException`.
`generic` carries the message of a direct `ECommerceException(msg)` throw. -/
inductive ECError where
  | invalidId
  | emptyCart
  | noOrders
  | invalidInput
  | generic (msg : String)
deriving DecidableEq, Repr

/-- `what()` messages of the exception classes. -/
def errorMessage : ECError → String
  | .invalidId => "Invalid product ID"
  | .emptyCart => "Shopping cart is empty"
  | .noOrders => "No orders found"
  | .invalidInput => "Invalid input. Please enter a valid number."
  | .generic m => m

/-- `Product` class: id, name, price (C++ `double` modelled as ℚ). -/
structure Product where
  id : Int
  name : String
  price : ℚ
deriving DecidableEq, Repr

/-- `CartItem` class: a product copy plus a quantity. -/
structure CartItem where
  product : Product
  quantity : Int
deriving DecidableEq, Repr

/-- `CartItem::getTotalPrice()`: `product.getPrice() * quantity`. -/
def getTotalPrice (it : CartItem) : ℚ :=
  it.product.price * (it.quantity : ℚ)

/-- `ShoppingCart::addProduct`: scan the items in order; the first item whose
product id matches has its quantity incremented (`setQuantity(old + quantity)`)
and the scan returns; otherwise a new `CartItem` is appended at the end.
The capacity-doubling reallocation of the backing array is invisible at the
level of the item sequence. -/
def addProduct : List CartItem → Product → Int → List CartItem
  | [], p, q => [⟨p, q⟩]
  | it :: rest, p, q =>
    if it.product.id = p.id then
      ⟨it.product, it.quantity + q⟩ :: rest
    else
      it :: addProduct rest p q

/-- `ShoppingCart::getTotalAmount()`: throws `EmptyCartException` when
`count == 0`, otherwise sums `items[i]->getTotalPrice()` over the items. -/
def getTotalAmount (c : List CartItem) : Except ECError ℚ :=
  if c.length = 0 then
    .error .emptyCart
  else
    .ok (c.foldl (fun acc it => acc + getTotalPrice it) 0)

/-- `ShoppingCart::isEmpty()`: `count == 0`. -/
def cartIsEmpty (c : List CartItem) : Bool :=
  c.length = 0

/-- The cart lines carrying a given product id (used to state uniqueness of
lines per id). -/
def linesWithId (c : List CartItem) (i : Int) : List CartItem :=
  c.filter (fun it => it.product.id == i)

/-- Payment strategies: the closed set of concrete `PaymentStrategy`
subclasses. -/
inductive PaymentMethod where
  | cash
  | card
  | gcash
deriving DecidableEq, Repr

/-- `getMethodName()` of each concrete strategy. -/
def methodName : PaymentMethod → String
  | .cash => "Cash"
  | .card => "Credit/Debit Card"
  | .gcash => "GCash"

/-- Payment-method resolution of `src/1.cpp`: `getValidatedInput` is followed
by the range check `paymentChoice < 1 || paymentChoice > 3`, which throws an
`ECommerceException` caught at the iteration boundary (`continue`); in range,
the `switch` builds the matching strategy. -/
def resolvePaymentChecked (choice : Int) : Except ECError PaymentMethod :=
  if choice < 1 ∨ choice > 3 then
    .error (.generic "Invalid payment method. Please select 1-3.")
  else if choice = 1 then .ok .cash
  else if choice = 2 then .ok .card
  else .ok .gcash

/-- Payment-method resolution of `src/tempCodeRunnerFile.cpp`: no range check;
the `switch` leaves `strategy = nullptr` for any choice outside 1..3.
`none` models the null strategy pointer. -/
def resolvePaymentUnchecked (choice : Int) : Option PaymentMethod :=
  if choice = 1 then some .cash
  else if choice = 2 then some .card
  else if choice = 3 then some .gcash
  else none

/-- Catalog entry 3 (`new Product(3, "Headphones", 99.99)`). -/
def headphones : Product := ⟨3, "Headphones", 9999/100⟩

/-- Catalog entry 4 (`new Product(4, "Mouse", 19.99)`). -/
def mouse : Product := ⟨4, "Mouse", 1999/100⟩

/-- `Order` class of the in-memory variant: order id (`int`), the chosen
strategy's method name, a deep copy of the cart items at checkout time, and
the total amount at checkout time. -/
structure OrderRec where
  orderId : Int
  paymentMethod : String
  items : List CartItem
  totalAmount : ℚ
deriving DecidableEq, Repr

/-- Size of the global `Order *orders[100]` array of the in-memory variant. -/
def ORDER_CAPACITY : Nat := 100

/-- Mutable global state of the in-memory variant: the singleton cart's item
sequence, the prefix `orders[0..orderCount)` of the order store, and the
`nextOrderId` counter. -/
structure MemState where
  cart : List CartItem
  orders : List OrderRec
  nextOrderId : Int
deriving DecidableEq, Repr

/-- Initial state of a run: empty cart, `orderCount = 0`, `nextOrderId = 1`. -/
def memInit : MemState := ⟨[], [], 1⟩

/-- The index `orderCount` at which the next checkout writes into the
`orders` array. -/
def appendIndex (s : MemState) : Nat :=
  s.orders.length

/-- Checkout of the in-memory variant (`main`, choice 2, confirmed): compute
`total = cart->getTotalAmount()` (throws `EmptyCartException` on an empty
cart, leaving all state untouched), `strategy->pay(total)` (a no-op), then
`orders[orderCount++] = new Order(nextOrderId++, methodName, items, count,
total)` — the `Order` constructor deep-copies every cart item — and finally
`cart->clearCart()`.  Returns the new state together with the outcome. -/
def checkoutMem (s : MemState) (m : PaymentMethod) :
    MemState × Except ECError (Int × ℚ) :=
  match getTotalAmount s.cart with
  | .error e => (s, .error e)
  | .ok total =>
    (⟨[], s.orders ++ [⟨s.nextOrderId, methodName m, s.cart, total⟩],
      s.nextOrderId + 1⟩,
     .ok (s.nextOrderId, total))

/-- `viewOrders()` of the in-memory variant: throws `NoOrdersException` when
`orderCount == 0`, otherwise displays `orders[0] .. orders[orderCount-1]` in
storage order. -/
def viewOrdersMem (orders : List OrderRec) : Except ECError (List OrderRec) :=
  if orders.length = 0 then .error .noOrders else .ok orders

/-- The cart mutations reachable from the menu after a checkout. -/
inductive CartOp where
  | add (p : Product) (q : Int)
  | clear
deriving Repr

/-- Effect of a cart mutation on the in-memory state: both operations touch
only the cart. -/
def applyCartOp (s : MemState) : CartOp → MemState
  | .add p q => ⟨addProduct s.cart p q, s.orders, s.nextOrderId⟩
  | .clear => ⟨[], s.orders, s.nextOrderId⟩

/-- A run of the in-memory variant performing one checkout per basket: for
each basket the menu loop's adds leave the cart holding that basket's items,
then checkout is confirmed.  The folds start from the initial program state. -/
def runCheckouts (m : PaymentMethod) (baskets : List (List CartItem)) : MemState :=
  baskets.foldl (fun s b => (checkoutMem ⟨b, s.orders, s.nextOrderId⟩ m).1) memInit

/-- The settlement step of the in-memory variant's checkout: the strategy
resolved by the unchecked `switch` is dereferenced unconditionally
(`strategy->pay(total)`); `none` models the null-pointer dereference. -/
def tempPaymentStep (s : MemState) (choice : Int) :
    Option (MemState × Except ECError (Int × ℚ)) :=
  (resolvePaymentUnchecked choice).map (fun m => checkoutMem s m)

/-! ## The textual-log variant (`src/1.cpp`)

`std::string` values are `List Char`; the log file is a sequence of
newline-terminated lines, so it is modelled as `Option (List Str)` where
`none` is an absent file and each element is one line without its
terminating newline. -/

/-- A C++ `std::string` handled by the log reader. -/
abbrev Str := List Char

/-- `std::string::npos` on a 64-bit platform. -/
def NPOS : Nat := 2 ^ 64 - 1

/-- `size_t` addition (wraps modulo `2^64`). -/
def szAdd (a b : Nat) : Nat := (a + b) % 2 ^ 64

/-- `size_t` subtraction (wraps modulo `2^64`); defined for `a b < 2^64`. -/
def szSub (a b : Nat) : Nat := (a + 2 ^ 64 - b) % 2 ^ 64

/-- Index of the first occurrence of `pat` in `l`
(`std::string::find` returning an `Option` instead of `npos`). -/
def findSub (pat : Str) : Str → Option Nat
  | [] => if pat.isEmpty then some 0 else none
  | c :: rest =>
    if pat.isPrefixOf (c :: rest) then some 0
    else (findSub pat rest).map (· + 1)

/-- `std::string::find`: `NPOS` when the pattern does not occur. -/
def findPos (pat l : Str) : Nat :=
  match findSub pat l with
  | some i => i
  | none => NPOS

/-- `std::string::find(pat, pos)`: search starting at `pos`; positions past
the end find nothing. -/
def findPosFrom (pat l : Str) (pos : Nat) : Nat :=
  match findSub pat (l.drop pos) with
  | some i => i + pos
  | none => NPOS

/-- `line.find(pat) != std::string::npos`. -/
def containsSub (pat l : Str) : Bool :=
  (findSub pat l).isSome

/-- `std::string::substr(pos, count)`: the count is clamped to the remaining
length.  (For `pos` beyond the end C++ throws `out_of_range`; the reader
only ever calls it with `pos` within the line, where this model is exact.) -/
def cppSubstr (l : Str) (pos count : Nat) : Str :=
  (l.drop pos).take count

/-- The header marker scanned for by `viewOrders`. -/
def logMarker : Str := "[LOG] -> Order ID: ".data

/-- Serialized order block written by the checkout of `src/1.cpp`: the order
id and payment method of the header line, the tab-separated item lines
produced by `getCartContents()`, and the rendered total. -/
structure LogBlock where
  orderId : Str
  method : Str
  itemLines : List (Str × Str × Str × Str)
  total : Str
deriving DecidableEq, Repr

/-- The header line:
`"[LOG] -> Order ID: " << orderId << " has been successfully checked out and paid using " << methodName << ".\n"`. -/
def headerLine (b : LogBlock) : Str :=
  logMarker ++ b.orderId ++
    " has been successfully checked out and paid using ".data ++
    b.method ++ ['.']

/-- One line of `getCartContents()`:
`to_string(id) + "\t" + name + "\t" + to_string(price) + "\t" + to_string(quantity)`. -/
def itemLine (f : Str × Str × Str × Str) : Str :=
  f.1 ++ ['\t'] ++ f.2.1 ++ ['\t'] ++ f.2.2.1 ++ ['\t'] ++ f.2.2.2

/-- The lines a checkout appends to `orders.log`: header, item lines,
`"Total Amount: $" << total << "\n\n"` (the second newline terminates an
empty line). -/
def blockLines (b : LogBlock) : List Str :=
  headerLine b :: (b.itemLines.map itemLine ++ ["Total Amount: $".data ++ b.total, []])

/-- State of the file variant: the singleton cart and the content of
`orders.log` (`none` when the file does not exist). -/
structure FileState where
  cart : List CartItem
  log : Option (List Str)
deriving Repr

/-- The string fields `getCartContents()` renders for one cart item, given
the `to_string(double)` rendering of the price. -/
def cartContentFields (renderPrice : ℚ → Str) (it : CartItem) :
    Str × Str × Str × Str :=
  ((toString it.product.id).data, it.product.name.data,
   renderPrice it.product.price, (toString it.quantity).data)

/-- Checkout of the file variant (`main` of `src/1.cpp`, choice 2, confirmed,
payment resolved): `total = cart->getTotalAmount()` (throws on an empty cart,
leaving the log untouched), `strategy->pay(total)` (no-op), the order id is
`"ORD" + to_string(time(nullptr))`, then `orders.log` is opened in append
mode — when the open succeeds (`openOk`) one block is appended, when it fails
the write is silently skipped — and in either case the success message is
printed and `cart->clearCart()` runs.  `renderPrice` and `renderTotal` model
the `to_string(double)` and `operator<<(double)` renderings. -/
def checkoutFile (renderPrice renderTotal : ℚ → Str) (timestamp : Str)
    (s : FileState) (m : PaymentMethod) (openOk : Bool) :
    FileState × Except ECError (Str × ℚ) :=
  match getTotalAmount s.cart with
  | .error e => (s, .error e)
  | .ok total =>
    let orderId : Str := "ORD".data ++ timestamp
    let b : LogBlock :=
      ⟨orderId, (methodName m).data,
       s.cart.map (cartContentFields renderPrice), renderTotal total⟩
    let log' : Option (List Str) :=
      if openOk then some ((s.log.getD []) ++ blockLines b) else s.log
    (⟨[], log'⟩, .ok (orderId, total))

/-- One order as reconstructed and displayed by `viewOrders` of `src/1.cpp`:
the extracted order id and payment method, the tab-separated fields of each
line the inner loop managed to split at three tabs, and the line displayed by
the trailing total check when it contains `"Total Amount: $"`. -/
structure ViewedOrder where
  orderId : Str
  method : Str
  items : List (Str × Str × Str × Str)
  totalLine : Option Str
deriving DecidableEq, Repr

/-- Header extraction of `viewOrders`: `idStart = find("Order ID: ") + 10`,
`idEnd = find(" has been")`, `substr(idStart, idEnd - idStart)`;
`methodStart = find("using ") + 6`, `methodEnd = find(".")`,
`substr(methodStart, methodEnd - methodStart)` — all with `size_t`
wrap-around when a pattern is absent. -/
def parseHeader (l : Str) : Str × Str :=
  let idStart := szAdd (findPos "Order ID: ".data l) 10
  let idEnd := findPos " has been".data l
  let mStart := szAdd (findPos "using ".data l) 6
  let mEnd := findPos ".".data l
  (cppSubstr l idStart (szSub idEnd idStart),
   cppSubstr l mStart (szSub mEnd mStart))

/-- Product-line parsing of `viewOrders`: `tab1 = find('\t')`,
`tab2 = find('\t', tab1 + 1)`, `tab3 = find('\t', tab2 + 1)`; only when all
three are found are the four fields displayed, otherwise the line is
silently skipped. -/
def parseProductLine (l : Str) : Option (Str × Str × Str × Str) :=
  let tab1 := findPos ['\t'] l
  let tab2 := findPosFrom ['\t'] l (szAdd tab1 1)
  let tab3 := findPosFrom ['\t'] l (szAdd tab2 1)
  if tab1 ≠ NPOS ∧ tab2 ≠ NPOS ∧ tab3 ≠ NPOS then
    some (cppSubstr l 0 tab1,
          cppSubstr l (szAdd tab1 1) (szSub tab2 (szAdd tab1 1)),
          cppSubstr l (szAdd tab2 1) (szSub tab3 (szAdd tab2 1)),
          cppSubstr l (szAdd tab3 1) NPOS)
  else
    none

/-- Position of the `viewOrders` reader between two `getline` calls:
`scan` is the head of the outer `while` loop, `inProducts` is the inner
`while (getline(logFile, line) && !line.empty())` loop over product lines,
and `awaitTotal` is the single `if (getline(logFile, line) && ...)` total
check that follows it.  `done` accumulates the orders already displayed. -/
inductive ReaderState where
  | scan (done : List ViewedOrder)
  | inProducts (done : List ViewedOrder)
      (oid m : Str) (its : List (Str × Str × Str × Str))
  | awaitTotal (done : List ViewedOrder)
      (oid m : Str) (its : List (Str × Str × Str × Str))

/-- Effect of reading one line in `viewOrders`:
in the outer loop a line containing the marker has its header extracted and
the reader enters the product loop (any other line is skipped); in the
product loop an empty line moves to the total check and any other line is
split at tabs (lines without three tabs are silently skipped); the
total-check line is displayed only when it contains `"Total Amount: $"`, and
is consumed either way before the outer loop resumes. -/
def readLogLine (st : ReaderState) (l : Str) : ReaderState :=
  match st with
  | .scan done =>
    if containsSub logMarker l then
      .inProducts done (parseHeader l).1 (parseHeader l).2 []
    else
      .scan done
  | .inProducts done oid m its =>
    if l.isEmpty then
      .awaitTotal done oid m its
    else
      match parseProductLine l with
      | some it => .inProducts done oid m (its ++ [it])
      | none => .inProducts done oid m its
  | .awaitTotal done oid m its =>
    .scan (done ++
      [⟨oid, m, its, if containsSub "Total Amount: $".data l then some l else none⟩])

/-- Orders displayed once end of file is reached: an order interrupted by end
of file inside the product loop or at the total check has been displayed
(header and items already printed) with no total line. -/
def flushReader : ReaderState → List ViewedOrder
  | .scan done => done
  | .inProducts done oid m its => done ++ [⟨oid, m, its, none⟩]
  | .awaitTotal done oid m its => done ++ [⟨oid, m, its, none⟩]

/-- The full read loop of `viewOrders` over the file's lines. -/
def parseOrders (ls : List Str) : List ViewedOrder :=
  flushReader (ls.foldl readLogLine (.scan []))

/-- `viewOrders()` of `src/1.cpp`: throws `NoOrdersException` when the file
cannot be opened; scans the file, and throws `NoOrdersException` when no line
carrying the header marker was seen in the outer loop (`hasOrders` stays
false); otherwise the displayed orders. -/
def viewOrdersFile (file : Option (List Str)) : Except ECError (List ViewedOrder) :=
  match file with
  | none => .error .noOrders
  | some lines =>
    let os := parseOrders lines
    if os.isEmpty then .error .noOrders else .ok os

/-- The consecutive ids `n, n+1, …, n+k-1` handed out by the `nextOrderId`
counter. -/
def consecutiveFrom (n : Int) (k : Nat) : List Int :=
  (List.range k).map (fun (i : Nat) => n + (i : Int))

/-- The §8 example scenario's serialized block: two Headphones paid with
Cash (fields as rendered by `getCartContents` and the total writes). -/
def demoBlock1 : LogBlock :=
  ⟨"ORD1700000000".data, "Cash".data,
   [("3".data, "Headphones".data, "99.990000".data, "2".data)], "199.98".data⟩

/-- A second serialized block: one Mouse paid with GCash. -/
def demoBlock2 : LogBlock :=
  ⟨"ORD1700000001".data, "GCash".data,
   [("4".data, "Mouse".data, "19.990000".data, "1".data)], "19.99".data⟩

/-- Number of orders the reader will have displayed once it reaches end of
file: the completed ones plus a started block (whose header was printed when
the marker line was met). -/
def readerWeight : ReaderState → Nat
  | .scan done => done.length
  | .inProducts done _ _ _ => done.length + 1
  | .awaitTotal done _ _ _ => done.length + 1

/-- Well-formedness of the string fields of one serialized cart line, as the
round-trip property requires: no embedded tab in the id, name and price
fields, and (machine-level) bounded total length. -/
abbrev goodField (f : Str × Str × Str × Str) : Prop :=
  '\t' ∉ f.1 ∧ '\t' ∉ f.2.1 ∧ '\t' ∉ f.2.2.1 ∧
    f.1.length + f.2.1.length + f.2.2.1.length + f.2.2.2.length < 2 ^ 32

/-! ## Helper lemmas -/

theorem foldl_add_getTotalPrice (c : List CartItem) (a : ℚ) :
    c.foldl (fun acc it => acc + getTotalPrice it) a = a + (c.map getTotalPrice).sum := by
  induction c generalizing a with
  | nil => simp
  | cons it rest ih => simp [List.foldl_cons, ih, add_assoc]

theorem getTotalAmount_of_ne_nil (c : List CartItem) (h : c ≠ []) :
    getTotalAmount c = .ok ((c.map getTotalPrice).sum) := by
  have hl : c.length ≠ 0 := by simpa [List.length_eq_zero] using h
  simp [getTotalAmount, hl, foldl_add_getTotalPrice]

theorem addProduct_of_no_match (c : List CartItem) (p : Product) (q : Int)
    (h : ∀ it ∈ c, it.product.id ≠ p.id) :
    addProduct c p q = c ++ [⟨p, q⟩] := by
  induction c with
  | nil => rfl
  | cons it rest ih =>
    have hit : it.product.id ≠ p.id := h it (by simp)
    simp [addProduct, hit, ih (fun x hx => h x (by simp [hx]))]

theorem addProduct_length_of_match (c : List CartItem) (p : Product) (q : Int)
    (h : ∃ it ∈ c, it.product.id = p.id) :
    (addProduct c p q).length = c.length := by
  induction c with
  | nil => simp at h
  | cons it rest ih =>
    by_cases hit : it.product.id = p.id
    · simp [addProduct, hit]
    · rcases h with ⟨x, hx, hxid⟩
      rcases List.mem_cons.mp hx with hx | hx
      · exact absurd (hx ▸ hxid) hit
      · simp [addProduct, hit, ih ⟨x, hx, hxid⟩]

theorem addProduct_append_match (c : List CartItem) (p : Product) (q1 q2 : Int)
    (h : ∀ it ∈ c, it.product.id ≠ p.id) :
    addProduct (c ++ [⟨p, q1⟩]) p q2 = c ++ [⟨p, q1 + q2⟩] := by
  induction c with
  | nil => simp [addProduct]
  | cons it rest ih =>
    have hit : it.product.id ≠ p.id := h it (by simp)
    simp [addProduct, hit, ih (fun x hx => h x (by simp [hx]))]

theorem linesWithId_append_single (c : List CartItem) (p : Product) (q : Int)
    (h : ∀ it ∈ c, it.product.id ≠ p.id) :
    linesWithId (c ++ [⟨p, q⟩]) p.id = [⟨p, q⟩] := by
  unfold linesWithId
  rw [List.filter_append]
  have hc : c.filter (fun it => it.product.id == p.id) = [] := by
    rw [List.filter_eq_nil_iff]
    intro it hit
    simpa using h it hit
  simp [hc]

/-! ## String-search lemmas for the log reader -/

theorem isPrefixOf_get (pat l : Str) (h : pat.isPrefixOf l = true) :
    ∀ i < pat.length, l[i]? = pat[i]? := by
  induction pat generalizing l with
  | nil => intro i hi; simp at hi
  | cons p ps ih =>
    cases l with
    | nil => simp [List.isPrefixOf] at h
    | cons c cs =>
      simp only [List.isPrefixOf, Bool.and_eq_true, beq_iff_eq] at h
      obtain ⟨rfl, h2⟩ := h
      intro i hi
      cases i with
      | zero => simp
      | succ i2 =>
        simpa using ih cs h2 i2 (by simpa using hi)

theorem findSub_eq_some (pat l : Str) (k : Nat)
    (hk : pat.isPrefixOf (l.drop k) = true)
    (hmin : ∀ j < k, pat.isPrefixOf (l.drop j) = false) :
    findSub pat l = some k := by
  induction l generalizing k with
  | nil =>
    cases k with
    | zero =>
      simp only [List.drop_nil] at hk
      cases pat with
      | nil => rfl
      | cons p ps => simp [List.isPrefixOf] at hk
    | succ k2 =>
      have h0 := hmin 0 (by omega)
      simp only [List.drop_nil] at hk h0
      rw [hk] at h0
      exact absurd h0 (by simp)
  | cons c cs ih =>
    cases k with
    | zero =>
      simp only [List.drop_zero] at hk
      simp [findSub, hk]
    | succ k2 =>
      have h0 := hmin 0 (by omega)
      simp only [List.drop_zero] at h0
      simp only [findSub, h0, Bool.false_eq_true, if_false]
      rw [ih k2 hk (fun j hj => hmin (j + 1) (by omega))]
      rfl

theorem findSub_char_first (c : Char) (a b : Str) (ha : c ∉ a) :
    findSub [c] (a ++ c :: b) = some a.length := by
  induction a with
  | nil => simp [findSub, List.isPrefixOf]
  | cons x xs ih =>
    have hxc : ¬x = c := fun h => ha (by simp [h])
    have hcx : ¬c = x := fun h => hxc h.symm
    simp only [List.cons_append, findSub, List.isPrefixOf, Bool.and_eq_true, beq_iff_eq]
    rw [if_neg (by simp [hcx])]
    simp only [List.append_eq]
    rw [ih (fun h => ha (by simp [h]))]
    rfl

theorem findSub_char_none (c : Char) (l : Str) (h : c ∉ l) :
    findSub [c] l = none := by
  induction l with
  | nil => simp [findSub]
  | cons x xs ih =>
    have hcx : ¬c = x := fun hh => h (by simp [hh])
    simp only [findSub, List.isPrefixOf, Bool.and_eq_true, beq_iff_eq]
    rw [if_neg (by simp [hcx])]
    rw [ih (fun hh => h (by simp [hh]))]
    rfl

theorem isPrefixOf_append_of_le (pat a b : Str) (h : pat.length ≤ a.length) :
    pat.isPrefixOf (a ++ b) = pat.isPrefixOf a := by
  induction pat generalizing a with
  | nil => simp [List.isPrefixOf]
  | cons p ps ih =>
    cases a with
    | nil => simp at h
    | cons x xs =>
      simp only [List.cons_append, List.isPrefixOf, List.append_eq]
      rw [ih xs (by simpa using h)]

theorem isPrefixOf_append_self (pat y : Str) : pat.isPrefixOf (pat ++ y) = true := by
  induction pat with
  | nil => simp [List.isPrefixOf]
  | cons p ps ih => simp [List.isPrefixOf, ih]

theorem szAdd_small (a b : Nat) (h : a + b < 2 ^ 64) : szAdd a b = a + b :=
  Nat.mod_eq_of_lt h

theorem szSub_small (a b : Nat) (hba : b ≤ a) (ha : a < 2 ^ 64) : szSub a b = a - b := by
  unfold szSub
  have h1 : a + 2 ^ 64 - b = 2 ^ 64 + (a - b) := by omega
  rw [h1, Nat.add_mod_left]
  exact Nat.mod_eq_of_lt (by omega)

theorem getElem?_append_lt (a b : Str) (j : Nat) (h : j < a.length) :
    (a ++ b)[j]? = a[j]? := by
  rw [List.getElem?_append, if_pos h]

theorem getElem?_append_add (a b : Str) (i : Nat) :
    (a ++ b)[a.length + i]? = b[i]? := by
  rw [List.getElem?_append, if_neg (by omega)]
  congr 1
  omega

theorem getElem?_append_add2 (a b z : Str) (i : Nat) :
    (a ++ (b ++ z))[a.length + b.length + i]? = z[i]? := by
  have h1 : a.length + b.length + i = a.length + (b.length + i) := by omega
  rw [h1, getElem?_append_add, getElem?_append_add]

theorem logMarker_length : logMarker.length = 19 := by decide

theorem goodIdChar_ne (c : Char) (hc : c.isUpper = true ∨ c.isDigit = true) :
    c ≠ ' ' ∧ c ≠ '.' ∧ c ≠ 'h' ∧ c ≠ 'u' ∧ c ≠ '\t' := by
  rcases hc with h | h <;>
    refine ⟨?_, ?_, ?_, ?_, ?_⟩ <;> intro hh <;> rw [hh] at h <;> revert h <;> decide

theorem findSub_hasBeen (idStr rest : Str)
    (hne : idStr ≠ [])
    (hid : ∀ ch ∈ idStr, ch.isUpper = true ∨ ch.isDigit = true) :
    findSub " has been".data
        (logMarker ++ (idStr ++ (" has been".data ++ rest)))
      = some (19 + idStr.length) := by
  apply findSub_eq_some
  · have hd : (logMarker ++ (idStr ++ (" has been".data ++ rest))).drop (19 + idStr.length)
        = " has been".data ++ rest := by
      rw [List.drop_append_eq_append_drop]
      have h1 : logMarker.drop (19 + idStr.length) = [] := by
        apply List.drop_eq_nil_of_le
        rw [logMarker_length]; omega
      have h2 : 19 + idStr.length - logMarker.length = idStr.length := by
        rw [logMarker_length]; omega
      rw [h1, h2, List.drop_append_eq_append_drop]
      have h3 : idStr.drop idStr.length = [] := by
        apply List.drop_eq_nil_of_le; omega
      have h4 : idStr.length - idStr.length = 0 := by omega
      rw [h3, h4, List.drop_zero, List.nil_append, List.nil_append]
    rw [hd]
    exact isPrefixOf_append_self _ _
  · intro j hj
    cases hp : (" has been".data).isPrefixOf
        ((logMarker ++ (idStr ++ (" has been".data ++ rest))).drop j)
    · rfl
    exfalso
    have hg := isPrefixOf_get _ _ hp
    have hg0 := hg 0 (by decide)
    have hg1 := hg 1 (by decide)
    rw [List.getElem?_drop] at hg0 hg1
    simp only [Nat.add_zero] at hg0
    have hp0 : (" has been".data)[0]? = some ' ' := by decide
    have hp1 : (" has been".data)[1]? = some 'h' := by decide
    rw [hp0] at hg0
    rw [hp1] at hg1
    rcases Nat.lt_or_ge j 19 with hjm | hjm
    · rw [getElem?_append_lt logMarker (idStr ++ (" has been".data ++ rest)) j
        (by rw [logMarker_length]; omega)] at hg0
      by_cases hj18 : j = 18
      · subst hj18
        have h19 : (logMarker ++ (idStr ++ (" has been".data ++ rest)))[18 + 1]?
            = (idStr ++ (" has been".data ++ rest))[0]? := by
          have hx := getElem?_append_add logMarker (idStr ++ (" has been".data ++ rest)) 0
          rw [logMarker_length] at hx
          simpa using hx
        rw [h19] at hg1
        rcases idStr with _ | ⟨ch, tl⟩
        · exact hne rfl
        · simp only [List.cons_append, List.getElem?_cons_zero, Option.some.injEq] at hg1
          have hmem : ch ∈ (ch :: tl) := by simp
          exact (goodIdChar_ne ch (hid ch hmem)).2.2.1 hg1
      · have hfin : ∀ jj, jj < 19 → logMarker[jj]? = some ' ' → jj ≠ 18 →
            logMarker[jj + 1]? ≠ some 'h' := by decide
        rw [getElem?_append_lt logMarker (idStr ++ (" has been".data ++ rest)) (j + 1)
          (by rw [logMarker_length]; omega)] at hg1
        exact hfin j hjm hg0 hj18 hg1
    · have hlt : j - 19 < idStr.length := by omega
      have hx : (logMarker ++ (idStr ++ (" has been".data ++ rest)))[j]?
          = idStr[j - 19]? := by
        have h1 := getElem?_append_add logMarker (idStr ++ (" has been".data ++ rest)) (j - 19)
        rw [logMarker_length] at h1
        have h2 : 19 + (j - 19) = j := by omega
        rw [h2] at h1
        rw [h1, getElem?_append_lt idStr (" has been".data ++ rest) (j - 19) hlt]
      rw [hx] at hg0
      have hmem : ' ' ∈ idStr := List.getElem?_mem hg0
      exact (goodIdChar_ne ' ' (hid ' ' hmem)).1 rfl

theorem findSub_ordId (tail : Str) :
    findSub "Order ID: ".data (logMarker ++ tail) = some 9 := by
  apply findSub_eq_some
  · have hd : (logMarker ++ tail).drop 9 = "Order ID: ".data ++ tail := by
      rw [List.drop_append_eq_append_drop]
      have h1 : logMarker.drop 9 = "Order ID: ".data := by decide
      have h2 : 9 - logMarker.length = 0 := by decide
      rw [h1, h2, List.drop_zero]
    rw [hd]
    exact isPrefixOf_append_self _ _
  · intro j hj
    have hd : (logMarker ++ tail).drop j = logMarker.drop j ++ tail := by
      rw [List.drop_append_eq_append_drop]
      have h2 : j - logMarker.length = 0 := by rw [logMarker_length]; omega
      rw [h2, List.drop_zero]
    rw [hd, isPrefixOf_append_of_le]
    · have hall : ∀ jj, jj < 9 → ("Order ID: ".data).isPrefixOf (logMarker.drop jj) = false := by
        decide
      exact hall j hj
    · have h3 : ("Order ID: ".data).length = 10 := by decide
      rw [h3, List.length_drop, logMarker_length]
      omega

theorem getElem?_append_add3 (a b z w : Str) (i : Nat) :
    (a ++ (b ++ (z ++ w)))[a.length + b.length + z.length + i]? = w[i]? := by
  have h1 : a.length + b.length + z.length + i
      = a.length + (b.length + (z.length + i)) := by omega
  rw [h1, getElem?_append_add, getElem?_append_add, getElem?_append_add]

theorem findSub_using (idStr tail : Str)
    (hid : ∀ ch ∈ idStr, ch.isUpper = true ∨ ch.isDigit = true) :
    findSub "using ".data
        (logMarker ++ (idStr ++
          (" has been successfully checked out and paid using ".data ++ tail)))
      = some (19 + idStr.length + 44) := by
  apply findSub_eq_some
  · have hM : " has been successfully checked out and paid using ".data
        = " has been successfully checked out and paid ".data ++ "using ".data := by decide
    have hassoc : logMarker ++ (idStr ++
          (" has been successfully checked out and paid using ".data ++ tail))
        = (logMarker ++ idStr ++ " has been successfully checked out and paid ".data)
            ++ ("using ".data ++ tail) := by
      rw [hM]
      simp [List.append_assoc]
    rw [hassoc]
    have h5 : 19 + idStr.length + 44
        = (logMarker ++ idStr ++ " has been successfully checked out and paid ".data).length := by
      have h6 : (" has been successfully checked out and paid ".data).length = 44 := by decide
      simp [List.length_append, logMarker_length, h6]
      omega
    rw [h5, List.drop_left]
    exact isPrefixOf_append_self _ _
  · intro j hj
    cases hp : ("using ".data).isPrefixOf
        ((logMarker ++ (idStr ++
          (" has been successfully checked out and paid using ".data ++ tail))).drop j)
    · rfl
    exfalso
    have hg := isPrefixOf_get _ _ hp
    have hg0 := hg 0 (by decide)
    have hg1 := hg 1 (by decide)
    rw [List.getElem?_drop] at hg0 hg1
    simp only [Nat.add_zero] at hg0
    have hp0 : ("using ".data)[0]? = some 'u' := by decide
    have hp1 : ("using ".data)[1]? = some 's' := by decide
    rw [hp0] at hg0
    rw [hp1] at hg1
    rcases Nat.lt_or_ge j 19 with hjm | hjm
    · rw [getElem?_append_lt logMarker (idStr ++
          (" has been successfully checked out and paid using ".data ++ tail)) j
        (by rw [logMarker_length]; omega)] at hg0
      have hall : ∀ jj, jj < 19 → logMarker[jj]? ≠ some 'u' := by decide
      exact hall j hjm hg0
    rcases Nat.lt_or_ge j (19 + idStr.length) with hji | hji
    · have hlt : j - 19 < idStr.length := by omega
      have hx : (logMarker ++ (idStr ++
            (" has been successfully checked out and paid using ".data ++ tail)))[j]?
          = idStr[j - 19]? := by
        have h1 := getElem?_append_add logMarker (idStr ++
          (" has been successfully checked out and paid using ".data ++ tail)) (j - 19)
        rw [logMarker_length] at h1
        have h2 : 19 + (j - 19) = j := by omega
        rw [h2] at h1
        rw [h1, getElem?_append_lt idStr _ (j - 19) hlt]
      rw [hx] at hg0
      have hmem : 'u' ∈ idStr := List.getElem?_mem hg0
      exact (goodIdChar_ne 'u' (hid 'u' hmem)).2.2.2.1 rfl
    · have hi : j - (19 + idStr.length) < 44 := by omega
      have hx0 : (logMarker ++ (idStr ++
            (" has been successfully checked out and paid using ".data ++ tail)))[j]?
          = (" has been successfully checked out and paid using ".data)[j - (19 + idStr.length)]? := by
        have h1 := getElem?_append_add2 logMarker idStr
          (" has been successfully checked out and paid using ".data ++ tail)
          (j - (19 + idStr.length))
        rw [logMarker_length] at h1
        have h2 : 19 + idStr.length + (j - (19 + idStr.length)) = j := by omega
        rw [h2] at h1
        rw [h1, getElem?_append_lt _ tail _ (by
          have h7 : (" has been successfully checked out and paid using ".data).length = 50 := by
            decide
          rw [h7]; omega)]
      have hx1 : (logMarker ++ (idStr ++
            (" has been successfully checked out and paid using ".data ++ tail)))[j + 1]?
          = (" has been successfully checked out and paid using ".data)[j - (19 + idStr.length) + 1]? := by
        have h1 := getElem?_append_add2 logMarker idStr
          (" has been successfully checked out and paid using ".data ++ tail)
          (j - (19 + idStr.length) + 1)
        rw [logMarker_length] at h1
        have h2 : 19 + idStr.length + (j - (19 + idStr.length) + 1) = j + 1 := by omega
        rw [h2] at h1
        rw [h1, getElem?_append_lt _ tail _ (by
          have h7 : (" has been successfully checked out and paid using ".data).length = 50 := by
            decide
          rw [h7]; omega)]
      rw [hx0] at hg0
      rw [hx1] at hg1
      have hfin : ∀ ii, ii < 44 →
          (" has been successfully checked out and paid using ".data)[ii]? = some 'u' →
          (" has been successfully checked out and paid using ".data)[ii + 1]? ≠ some 's' := by
        decide
      exact hfin (j - (19 + idStr.length)) hi hg0 hg1

theorem findSub_dot (idStr meth : Str)
    (hid : ∀ ch ∈ idStr, ch.isUpper = true ∨ ch.isDigit = true)
    (hmdot : ∀ ch ∈ meth, ch ≠ '.') :
    findSub ".".data
        (logMarker ++ (idStr ++
          (" has been successfully checked out and paid using ".data ++ (meth ++ ['.']))))
      = some (19 + idStr.length + 50 + meth.length) := by
  apply findSub_eq_some
  · have hassoc : logMarker ++ (idStr ++
          (" has been successfully checked out and paid using ".data ++ (meth ++ ['.'])))
        = (logMarker ++ idStr ++ " has been successfully checked out and paid using ".data
            ++ meth) ++ ['.'] := by
      simp [List.append_assoc]
    rw [hassoc]
    have h5 : 19 + idStr.length + 50 + meth.length
        = (logMarker ++ idStr ++ " has been successfully checked out and paid using ".data
            ++ meth).length := by
      have h6 : (" has been successfully checked out and paid using ".data).length = 50 := by
        decide
      simp [List.length_append, logMarker_length, h6]
      omega
    rw [h5, List.drop_left]
    decide
  · intro j hj
    cases hp : (".".data).isPrefixOf
        ((logMarker ++ (idStr ++
          (" has been successfully checked out and paid using ".data ++ (meth ++ ['.'])))).drop j)
    · rfl
    exfalso
    have hg := isPrefixOf_get _ _ hp
    have hg0 := hg 0 (by decide)
    rw [List.getElem?_drop] at hg0
    simp only [Nat.add_zero] at hg0
    have hp0 : (".".data)[0]? = some '.' := by decide
    rw [hp0] at hg0
    rcases Nat.lt_or_ge j 19 with hjm | hjm
    · rw [getElem?_append_lt logMarker _ j (by rw [logMarker_length]; omega)] at hg0
      have hall : ∀ jj, jj < 19 → logMarker[jj]? ≠ some '.' := by decide
      exact hall j hjm hg0
    rcases Nat.lt_or_ge j (19 + idStr.length) with hji | hji
    · have hlt : j - 19 < idStr.length := by omega
      have hx : (logMarker ++ (idStr ++
            (" has been successfully checked out and paid using ".data ++ (meth ++ ['.']))))[j]?
          = idStr[j - 19]? := by
        have h1 := getElem?_append_add logMarker (idStr ++
          (" has been successfully checked out and paid using ".data ++ (meth ++ ['.'])))
          (j - 19)
        rw [logMarker_length] at h1
        have h2 : 19 + (j - 19) = j := by omega
        rw [h2] at h1
        rw [h1, getElem?_append_lt idStr _ (j - 19) hlt]
      rw [hx] at hg0
      have hmem : '.' ∈ idStr := List.getElem?_mem hg0
      exact (goodIdChar_ne '.' (hid '.' hmem)).2.1 rfl
    rcases Nat.lt_or_ge j (19 + idStr.length + 50) with hjd | hjd
    · have hi : j - (19 + idStr.length) < 50 := by omega
      have hx : (logMarker ++ (idStr ++
            (" has been successfully checked out and paid using ".data ++ (meth ++ ['.']))))[j]?
          = (" has been successfully checked out and paid using ".data)[j - (19 + idStr.length)]? := by
        have h1 := getElem?_append_add2 logMarker idStr
          (" has been successfully checked out and paid using ".data ++ (meth ++ ['.']))
          (j - (19 + idStr.length))
        rw [logMarker_length] at h1
        have h2 : 19 + idStr.length + (j - (19 + idStr.length)) = j := by omega
        rw [h2] at h1
        rw [h1, getElem?_append_lt _ _ _ (by
          have h7 : (" has been successfully checked out and paid using ".data).length = 50 := by
            decide
          rw [h7]; omega)]
      rw [hx] at hg0
      have hall : ∀ ii, ii < 50 →
          (" has been successfully checked out and paid using ".data)[ii]? ≠ some '.' := by
        decide
      exact hall (j - (19 + idStr.length)) hi hg0
    · have hi : j - (19 + idStr.length + 50) < meth.length := by omega
      have hx : (logMarker ++ (idStr ++
            (" has been successfully checked out and paid using ".data ++ (meth ++ ['.']))))[j]?
          = meth[j - (19 + idStr.length + 50)]? := by
        have h1 := getElem?_append_add3 logMarker idStr
          " has been successfully checked out and paid using ".data (meth ++ ['.'])
          (j - (19 + idStr.length + 50))
        rw [logMarker_length] at h1
        have h7 : (" has been successfully checked out and paid using ".data).length = 50 := by
          decide
        rw [h7] at h1
        have h2 : 19 + idStr.length + 50 + (j - (19 + idStr.length + 50)) = j := by omega
        rw [h2] at h1
        rw [h1, getElem?_append_lt meth _ _ hi]
      rw [hx] at hg0
      have hmem : '.' ∈ meth := List.getElem?_mem hg0
      exact hmdot '.' hmem rfl

theorem parseHeader_headerLine (b : LogBlock)
    (hne : b.orderId ≠ [])
    (hid : ∀ ch ∈ b.orderId, ch.isUpper = true ∨ ch.isDigit = true)
    (hlen : b.orderId.length < 2 ^ 32)
    (hmdot : ∀ ch ∈ b.method, ch ≠ '.')
    (hmlen : b.method.length < 2 ^ 32) :
    parseHeader (headerLine b) = (b.orderId, b.method) := by
  have h32 : (2 : Nat) ^ 32 = 4294967296 := by norm_num
  have h64 : (2 : Nat) ^ 64 = 18446744073709551616 := by norm_num
  have hh : headerLine b = logMarker ++ (b.orderId ++
      (" has been successfully checked out and paid using ".data ++ (b.method ++ ['.']))) := by
    simp [headerLine, List.append_assoc]
  have h1 : findPos "Order ID: ".data (headerLine b) = 9 := by
    rw [hh, findPos, findSub_ordId]
  have h2 : findPos " has been".data (headerLine b) = 19 + b.orderId.length := by
    have hsplit : " has been successfully checked out and paid using ".data
        = " has been".data ++ " successfully checked out and paid using ".data := by decide
    rw [hh, hsplit, findPos]
    simp only [List.append_assoc]
    rw [findSub_hasBeen _ _ hne hid]
  have h3 : findPos "using ".data (headerLine b) = 19 + b.orderId.length + 44 := by
    rw [hh, findPos, findSub_using _ _ hid]
  have h4 : findPos ".".data (headerLine b)
      = 19 + b.orderId.length + 50 + b.method.length := by
    rw [hh, findPos, findSub_dot _ _ hid hmdot]
  rw [parseHeader, h1, h2, h3, h4]
  have hA : szAdd 9 10 = 19 := by rw [szAdd_small]; omega
  have hB : szSub (19 + b.orderId.length) 19 = b.orderId.length := by
    rw [szSub_small] <;> omega
  have hC : szAdd (19 + b.orderId.length + 44) 6 = 19 + b.orderId.length + 50 := by
    rw [szAdd_small]
    omega
  have hD : szSub (19 + b.orderId.length + 50 + b.method.length)
      (19 + b.orderId.length + 50) = b.method.length := by
    rw [szSub_small] <;> omega
  rw [hA, hB, hC, hD]
  have hE : cppSubstr (headerLine b) 19 b.orderId.length = b.orderId := by
    rw [cppSubstr, hh]
    have hdrop : (logMarker ++ (b.orderId ++
        (" has been successfully checked out and paid using ".data ++ (b.method ++ ['.'])))).drop 19
        = b.orderId ++
          (" has been successfully checked out and paid using ".data ++ (b.method ++ ['.'])) := by
      rw [← logMarker_length, List.drop_left]
    rw [hdrop]
    have htake := List.take_left b.orderId
      (" has been successfully checked out and paid using ".data ++ (b.method ++ ['.']))
    exact htake
  have hF : cppSubstr (headerLine b) (19 + b.orderId.length + 50) b.method.length
      = b.method := by
    rw [cppSubstr, hh]
    have hassoc : logMarker ++ (b.orderId ++
        (" has been successfully checked out and paid using ".data ++ (b.method ++ ['.'])))
        = (logMarker ++ b.orderId ++ " has been successfully checked out and paid using ".data)
            ++ (b.method ++ ['.']) := by
      simp [List.append_assoc]
    have hplen : (logMarker ++ b.orderId
        ++ " has been successfully checked out and paid using ".data).length
        = 19 + b.orderId.length + 50 := by
      have h6 : (" has been successfully checked out and paid using ".data).length = 50 := by
        decide
      simp [List.length_append, logMarker_length, h6]
      omega
    rw [hassoc, ← hplen, List.drop_left, List.take_left]
  rw [hE, hF]

theorem drop_append_cons (a X : Str) (c : Char) :
    (a ++ (c :: X)).drop (a.length + 1) = X := by
  have h : a ++ (c :: X) = (a ++ [c]) ++ X := by simp
  have h2 : a.length + 1 = (a ++ [c]).length := by simp
  rw [h, h2, List.drop_left]

theorem parseProductLine_itemLine (f : Str × Str × Str × Str)
    (h1 : '\t' ∉ f.1) (h2 : '\t' ∉ f.2.1) (h3 : '\t' ∉ f.2.2.1)
    (hl : f.1.length + f.2.1.length + f.2.2.1.length + f.2.2.2.length < 2 ^ 32) :
    parseProductLine (itemLine f) = some f := by
  obtain ⟨a, bb, cc, d⟩ := f
  simp only at h1 h2 h3 hl
  have h32 : (2 : Nat) ^ 32 = 4294967296 := by norm_num
  have h64 : (2 : Nat) ^ 64 = 18446744073709551616 := by norm_num
  have hL : itemLine (a, bb, cc, d)
      = a ++ ('\t' :: (bb ++ ('\t' :: (cc ++ ('\t' :: d))))) := by
    simp [itemLine, List.append_assoc]
  have ht1 : findPos ['\t'] (itemLine (a, bb, cc, d)) = a.length := by
    rw [hL, findPos, findSub_char_first _ _ _ h1]
  have hd1 : (itemLine (a, bb, cc, d)).drop (a.length + 1)
      = bb ++ ('\t' :: (cc ++ ('\t' :: d))) := by
    rw [hL, drop_append_cons]
  have ht2 : findPosFrom ['\t'] (itemLine (a, bb, cc, d)) (szAdd a.length 1)
      = a.length + 1 + bb.length := by
    have hsz : szAdd a.length 1 = a.length + 1 := by rw [szAdd_small]; omega
    rw [findPosFrom, hsz, hd1, findSub_char_first _ _ _ h2]
    simp only []
    omega
  have hd2 : (itemLine (a, bb, cc, d)).drop (a.length + 1 + bb.length + 1)
      = cc ++ ('\t' :: d) := by
    have hsum : a.length + 1 + bb.length + 1 = (a.length + 1) + (bb.length + 1) := by omega
    rw [hsum, ← List.drop_drop (bb.length + 1) (a.length + 1), hd1, drop_append_cons]
  have ht3 : findPosFrom ['\t'] (itemLine (a, bb, cc, d))
      (szAdd (a.length + 1 + bb.length) 1) = a.length + 1 + bb.length + 1 + cc.length := by
    have hsz : szAdd (a.length + 1 + bb.length) 1 = a.length + 1 + bb.length + 1 := by
      rw [szAdd_small]; omega
    rw [findPosFrom, hsz, hd2, findSub_char_first _ _ _ h3]
    simp only []
    omega
  rw [parseProductLine, ht1, ht2, ht3]
  rw [if_pos (by refine ⟨?_, ?_, ?_⟩ <;> rw [NPOS] <;> omega)]
  congr 1
  have hq1 : cppSubstr (itemLine (a, bb, cc, d)) 0 a.length = a := by
    rw [cppSubstr, List.drop_zero, hL, List.take_left]
  have hsz1 : szAdd a.length 1 = a.length + 1 := by rw [szAdd_small]; omega
  have hq2 : cppSubstr (itemLine (a, bb, cc, d)) (szAdd a.length 1)
      (szSub (a.length + 1 + bb.length) (szAdd a.length 1)) = bb := by
    rw [cppSubstr, hsz1, hd1]
    have hs : szSub (a.length + 1 + bb.length) (a.length + 1) = bb.length := by
      rw [szSub_small] <;> omega
    rw [hs, List.take_left]
  have hsz2 : szAdd (a.length + 1 + bb.length) 1 = a.length + 1 + bb.length + 1 := by
    rw [szAdd_small]; omega
  have hq3 : cppSubstr (itemLine (a, bb, cc, d)) (szAdd (a.length + 1 + bb.length) 1)
      (szSub (a.length + 1 + bb.length + 1 + cc.length)
        (szAdd (a.length + 1 + bb.length) 1)) = cc := by
    rw [cppSubstr, hsz2, hd2]
    have hs : szSub (a.length + 1 + bb.length + 1 + cc.length)
        (a.length + 1 + bb.length + 1) = cc.length := by
      rw [szSub_small] <;> omega
    rw [hs, List.take_left]
  have hsz3 : szAdd (a.length + 1 + bb.length + 1 + cc.length) 1
      = a.length + 1 + bb.length + 1 + cc.length + 1 := by
    rw [szAdd_small]; omega
  have hd3 : (itemLine (a, bb, cc, d)).drop (a.length + 1 + bb.length + 1 + cc.length + 1)
      = d := by
    have hsum : a.length + 1 + bb.length + 1 + cc.length + 1
        = (a.length + 1 + bb.length + 1) + (cc.length + 1) := by omega
    rw [hsum, ← List.drop_drop (cc.length + 1) (a.length + 1 + bb.length + 1), hd2,
      drop_append_cons]
  have hq4 : cppSubstr (itemLine (a, bb, cc, d))
      (szAdd (a.length + 1 + bb.length + 1 + cc.length) 1) NPOS = d := by
    rw [cppSubstr, hsz3, hd3]
    apply List.take_of_length_le
    rw [NPOS]
    have hdl : d.length < 2 ^ 32 := by omega
    omega
  rw [hq1, hq2, hq3, hq4]

theorem containsSub_of_isPrefixOf (pat l : Str) (h : pat.isPrefixOf l = true) :
    containsSub pat l = true := by
  rw [containsSub]
  cases l with
  | nil =>
    cases pat with
    | nil => rfl
    | cons p ps => simp [List.isPrefixOf] at h
  | cons c cs => simp [findSub, h]

theorem containsSub_headerLine (b : LogBlock) :
    containsSub logMarker (headerLine b) = true := by
  apply containsSub_of_isPrefixOf
  have hh : headerLine b = logMarker ++ (b.orderId ++
      (" has been successfully checked out and paid using ".data ++ (b.method ++ ['.']))) := by
    simp [headerLine, List.append_assoc]
  rw [hh]
  exact isPrefixOf_append_self _ _

theorem parseProductLine_of_no_tab (l : Str) (h : '\t' ∉ l) :
    parseProductLine l = none := by
  simp [parseProductLine, findPos, findSub_char_none _ _ h]

theorem itemLine_ne_empty (f : Str × Str × Str × Str) :
    (itemLine f).isEmpty = false := by
  obtain ⟨a, bb, cc, d⟩ := f
  simp [itemLine]

theorem foldl_products (fs : List (Str × Str × Str × Str)) (done : List ViewedOrder)
    (oid m : Str) :
    ∀ its : List (Str × Str × Str × Str), (∀ f ∈ fs, goodField f) →
    (fs.map itemLine).foldl readLogLine (.inProducts done oid m its)
      = .inProducts done oid m (its ++ fs) := by
  induction fs with
  | nil => intro its _; simp
  | cons f fs2 ih =>
    intro its hfs
    obtain ⟨hf1, hf2, hf3, hf4⟩ := hfs f (by simp)
    have hstep : readLogLine (.inProducts done oid m its) (itemLine f)
        = .inProducts done oid m (its ++ [f]) := by
      rw [readLogLine]
      rw [if_neg (by rw [itemLine_ne_empty]; simp)]
      rw [parseProductLine_itemLine f hf1 hf2 hf3 hf4]
    rw [List.map_cons, List.foldl_cons, hstep,
      ih (its ++ [f]) (fun x hx => hfs x (by simp [hx]))]
    simp

theorem foldl_blockLines (b : LogBlock) (done : List ViewedOrder)
    (hne : b.orderId ≠ [])
    (hid : ∀ ch ∈ b.orderId, ch.isUpper = true ∨ ch.isDigit = true)
    (hlen : b.orderId.length < 2 ^ 32)
    (hmdot : ∀ ch ∈ b.method, ch ≠ '.')
    (hmlen : b.method.length < 2 ^ 32)
    (hfs : ∀ f ∈ b.itemLines, goodField f)
    (htot : '\t' ∉ b.total) :
    (blockLines b).foldl readLogLine (.scan done)
      = .awaitTotal done b.orderId b.method b.itemLines := by
  rw [blockLines, List.foldl_cons]
  have hstep1 : readLogLine (.scan done) (headerLine b)
      = .inProducts done b.orderId b.method [] := by
    rw [readLogLine, if_pos (containsSub_headerLine b),
      parseHeader_headerLine b hne hid hlen hmdot hmlen]
  rw [hstep1, List.foldl_append, foldl_products b.itemLines done b.orderId b.method []
    hfs, List.nil_append]
  have htotline : '\t' ∉ "Total Amount: $".data ++ b.total := by
    intro hmem
    rcases List.mem_append.mp hmem with hml | hmr
    · revert hml; decide
    · exact htot hmr
  have hstep2 : readLogLine (.inProducts done b.orderId b.method b.itemLines)
      ("Total Amount: $".data ++ b.total)
      = .inProducts done b.orderId b.method b.itemLines := by
    rw [readLogLine]
    rw [if_neg (by simp)]
    rw [parseProductLine_of_no_tab _ htotline]
  rw [List.foldl_cons, hstep2, List.foldl_cons]
  rfl

theorem parseOrders_blockLines (b : LogBlock)
    (hne : b.orderId ≠ [])
    (hid : ∀ ch ∈ b.orderId, ch.isUpper = true ∨ ch.isDigit = true)
    (hlen : b.orderId.length < 2 ^ 32)
    (hmdot : ∀ ch ∈ b.method, ch ≠ '.')
    (hmlen : b.method.length < 2 ^ 32)
    (hfs : ∀ f ∈ b.itemLines, goodField f)
    (htot : '\t' ∉ b.total) :
    parseOrders (blockLines b) = [⟨b.orderId, b.method, b.itemLines, none⟩] := by
  rw [parseOrders, foldl_blockLines b [] hne hid hlen hmdot hmlen hfs htot]
  rfl

/-! ## Claim theorems -/

/-- C2: `getTotalAmount` fails with `EmptyCart` exactly on a cart with no
lines; on a non-empty cart it returns the sum of `price × quantity` over all
lines, and the value is invariant under permutation of the lines. -/
theorem totalAmount_spec (c c' : List CartItem) (hp : c.Perm c') :
    (getTotalAmount c = .error .emptyCart ↔ c = []) ∧
    (c ≠ [] →
      getTotalAmount c =
        .ok ((c.map (fun it => it.product.price * (it.quantity : ℚ))).sum)) ∧
    getTotalAmount c = getTotalAmount c' := by
  refine ⟨⟨fun h => ?_, fun h => ?_⟩, fun h => ?_, ?_⟩
  · by_contra hne
    rw [getTotalAmount_of_ne_nil c hne] at h
    exact Except.noConfusion h
  · subst h
    rfl
  · rw [getTotalAmount_of_ne_nil c h]
    rfl
  · by_cases h : c = []
    · rw [h] at hp
      have h' : c' = [] := List.Perm.eq_nil hp.symm
      rw [h, h']
    · have h' : c' ≠ [] := by
        intro hc'
        exact h (List.Perm.eq_nil (hc' ▸ hp))
      rw [getTotalAmount_of_ne_nil c h, getTotalAmount_of_ne_nil c' h',
        List.Perm.sum_eq (hp.map getTotalPrice)]

/-- C2 witness: a concrete two-line cart and its transposition. -/
theorem totalAmount_spec_witness :
    (([⟨headphones, 2⟩, ⟨mouse, 1⟩] : List CartItem).Perm
        [⟨mouse, 1⟩, ⟨headphones, 2⟩]) ∧
    ((getTotalAmount [⟨headphones, 2⟩, ⟨mouse, 1⟩] = .error .emptyCart ↔
        ([⟨headphones, 2⟩, ⟨mouse, 1⟩] : List CartItem) = []) ∧
      (([⟨headphones, 2⟩, ⟨mouse, 1⟩] : List CartItem) ≠ [] →
        getTotalAmount [⟨headphones, 2⟩, ⟨mouse, 1⟩] =
          .ok ((([⟨headphones, 2⟩, ⟨mouse, 1⟩] : List CartItem).map
            (fun it => it.product.price * (it.quantity : ℚ))).sum)) ∧
      getTotalAmount [⟨headphones, 2⟩, ⟨mouse, 1⟩] =
        getTotalAmount [⟨mouse, 1⟩, ⟨headphones, 2⟩]) :=
  ⟨List.Perm.swap _ _ _, totalAmount_spec _ _ (List.Perm.swap _ _ _)⟩

/-- C3 counterexample: on a cart that already holds a line for product id 3
with quantity 5, adding id 3 twice with quantities 1 and 1 leaves one line of
quantity 7, not `1 + 1` as the claim states for every cart. -/
theorem addProduct_twice_counterexample :
    (linesWithId
        (addProduct (addProduct [⟨headphones, 5⟩] headphones 1) headphones 1)
        3).map CartItem.quantity ≠ [1 + 1] := by
  simp [addProduct, linesWithId, headphones]

/-- C3 (amended): starting from a cart with no line for the product's id,
adding the product twice with quantities `q1`, `q2` appends a single new line
and leaves exactly one line for that id, of quantity `q1 + q2`; and on any
cart a line with a matching id makes `addProduct` increment in place, never
append. -/
theorem addProduct_twice_amended (c : List CartItem) (p : Product) (q1 q2 : Int)
    (h : ∀ it ∈ c, it.product.id ≠ p.id) :
    addProduct (addProduct c p q1) p q2 = c ++ [⟨p, q1 + q2⟩] ∧
    linesWithId (addProduct (addProduct c p q1) p q2) p.id = [⟨p, q1 + q2⟩] ∧
    (addProduct c p q1).length = c.length + 1 ∧
    ∀ (c' : List CartItem) (p' : Product) (q' : Int),
      (∃ it ∈ c', it.product.id = p'.id) →
        (addProduct c' p' q').length = c'.length := by
  have h1 : addProduct c p q1 = c ++ [⟨p, q1⟩] := addProduct_of_no_match c p q1 h
  have h2 : addProduct (addProduct c p q1) p q2 = c ++ [⟨p, q1 + q2⟩] := by
    rw [h1]
    exact addProduct_append_match c p q1 q2 h
  refine ⟨h2, ?_, ?_, ?_⟩
  · rw [h2]
    exact linesWithId_append_single c p (q1 + q2) h
  · simp [h1]
  · intro c' p' q' hm
    exact addProduct_length_of_match c' p' q' hm

/-- C3 witness: adding Headphones twice to a cart holding only the Mouse. -/
theorem addProduct_twice_amended_witness :
    (∀ it ∈ ([⟨mouse, 1⟩] : List CartItem), it.product.id ≠ headphones.id) ∧
    (addProduct (addProduct [⟨mouse, 1⟩] headphones 2) headphones 3 =
        [⟨mouse, 1⟩] ++ [⟨headphones, 2 + 3⟩] ∧
      linesWithId (addProduct (addProduct [⟨mouse, 1⟩] headphones 2) headphones 3)
          headphones.id = [⟨headphones, 2 + 3⟩] ∧
      (addProduct [⟨mouse, 1⟩] headphones 2).length =
        ([⟨mouse, 1⟩] : List CartItem).length + 1 ∧
      ∀ (c' : List CartItem) (p' : Product) (q' : Int),
        (∃ it ∈ c', it.product.id = p'.id) →
          (addProduct c' p' q').length = c'.length) :=
  ⟨by simp [mouse, headphones], addProduct_twice_amended _ _ _ _ (by simp [mouse, headphones])⟩

/-- C4: attempting checkout on an empty cart fails with `EmptyCart` before
any order-log mutation, in both variants: the whole state (order store
respectively log file) is returned unchanged. -/
theorem checkout_empty_cart (s : MemState) (fs : FileState) (m : PaymentMethod)
    (renderPrice renderTotal : ℚ → Str) (ts : Str) (openOk : Bool)
    (hs : s.cart = []) (hf : fs.cart = []) :
    checkoutMem s m = (s, .error .emptyCart) ∧
    checkoutFile renderPrice renderTotal ts fs m openOk = (fs, .error .emptyCart) := by
  constructor
  · simp [checkoutMem, hs, getTotalAmount]
  · simp [checkoutFile, hf, getTotalAmount]

/-- C4 witness: the initial states of both variants. -/
theorem checkout_empty_cart_witness :
    memInit.cart = [] ∧
    (checkoutMem memInit .cash = (memInit, .error .emptyCart) ∧
      checkoutFile (fun _ => []) (fun _ => []) "1".data ⟨[], none⟩ .cash true =
        (⟨[], none⟩, .error .emptyCart)) :=
  ⟨rfl, checkout_empty_cart memInit ⟨[], none⟩ .cash _ _ _ true rfl rfl⟩

/-- C1: checkout on a non-empty cart, in both variants: exactly one new entry
is appended to the order store (respectively exactly one block to the log
when the file opens), the cart is empty afterwards, and the new entry records
the total computed by `getTotalAmount` immediately before the checkout. -/
theorem checkout_nonempty_spec (s : MemState) (fs : FileState) (m : PaymentMethod)
    (renderPrice renderTotal : ℚ → Str) (ts : Str)
    (hs : s.cart ≠ []) (hf : fs.cart ≠ []) :
    ∃ t, getTotalAmount s.cart = .ok t ∧
      (checkoutMem s m).1.orders =
        s.orders ++ [⟨s.nextOrderId, methodName m, s.cart, t⟩] ∧
      (checkoutMem s m).1.orders.length = s.orders.length + 1 ∧
      cartIsEmpty (checkoutMem s m).1.cart = true ∧
      (checkoutMem s m).2 = .ok (s.nextOrderId, t) ∧
      ∃ t2, getTotalAmount fs.cart = .ok t2 ∧
        (checkoutFile renderPrice renderTotal ts fs m true).1.log =
          some ((fs.log.getD []) ++ blockLines
            ⟨"ORD".data ++ ts, (methodName m).data,
              fs.cart.map (cartContentFields renderPrice), renderTotal t2⟩) ∧
        cartIsEmpty (checkoutFile renderPrice renderTotal ts fs m true).1.cart = true := by
  have hs2 := getTotalAmount_of_ne_nil s.cart hs
  have hf2 := getTotalAmount_of_ne_nil fs.cart hf
  refine ⟨_, hs2, ?_, ?_, ?_, ?_, _, hf2, ?_, ?_⟩
  · simp [checkoutMem, hs2]
  · simp [checkoutMem, hs2]
  · simp [checkoutMem, hs2, cartIsEmpty]
  · simp [checkoutMem, hs2]
  · simp [checkoutFile, hf2]
  · simp [checkoutFile, hf2, cartIsEmpty]

/-- C1 witness: a one-line cart (two Headphones) checked out with Cash in
both variants. -/
theorem checkout_nonempty_spec_witness :
    (([⟨headphones, 2⟩] : List CartItem) ≠ [] ∧
      (⟨[⟨headphones, 2⟩], some []⟩ : FileState).cart ≠ []) ∧
    (∃ t, getTotalAmount (⟨[⟨headphones, 2⟩], [], 1⟩ : MemState).cart = .ok t ∧
      (checkoutMem ⟨[⟨headphones, 2⟩], [], 1⟩ .cash).1.orders =
        (⟨[⟨headphones, 2⟩], [], 1⟩ : MemState).orders ++
          [⟨(⟨[⟨headphones, 2⟩], [], 1⟩ : MemState).nextOrderId, methodName .cash,
            (⟨[⟨headphones, 2⟩], [], 1⟩ : MemState).cart, t⟩] ∧
      (checkoutMem ⟨[⟨headphones, 2⟩], [], 1⟩ .cash).1.orders.length =
        (⟨[⟨headphones, 2⟩], [], 1⟩ : MemState).orders.length + 1 ∧
      cartIsEmpty (checkoutMem ⟨[⟨headphones, 2⟩], [], 1⟩ .cash).1.cart = true ∧
      (checkoutMem ⟨[⟨headphones, 2⟩], [], 1⟩ .cash).2 =
        .ok ((⟨[⟨headphones, 2⟩], [], 1⟩ : MemState).nextOrderId, t) ∧
      ∃ t2, getTotalAmount (⟨[⟨headphones, 2⟩], some []⟩ : FileState).cart = .ok t2 ∧
        (checkoutFile (fun _ => []) (fun _ => []) "1700000000".data
            ⟨[⟨headphones, 2⟩], some []⟩ .cash true).1.log =
          some (((⟨[⟨headphones, 2⟩], some []⟩ : FileState).log.getD []) ++ blockLines
            ⟨"ORD".data ++ "1700000000".data, (methodName .cash).data,
              (⟨[⟨headphones, 2⟩], some []⟩ : FileState).cart.map
                (cartContentFields (fun _ => [])), (fun (_ : ℚ) => ([] : Str)) t2⟩) ∧
        cartIsEmpty (checkoutFile (fun _ => []) (fun _ => []) "1700000000".data
          ⟨[⟨headphones, 2⟩], some []⟩ .cash true).1.cart = true) :=
  ⟨⟨by simp, by simp⟩,
    checkout_nonempty_spec ⟨[⟨headphones, 2⟩], [], 1⟩ ⟨[⟨headphones, 2⟩], some []⟩
      .cash (fun _ => []) (fun _ => []) "1700000000".data (by simp) (by simp)⟩

/-- C5: in the file variant, when the log file fails to open during checkout
the block is silently dropped (the log is unchanged), yet the checkout still
reports success and the cart is cleared — the code neither surfaces an error
nor blocks cart-clearing. -/
theorem failedAppend_clears_cart (renderPrice renderTotal : ℚ → Str) (ts : Str)
    (fs : FileState) (m : PaymentMethod) (hf : fs.cart ≠ []) :
    (checkoutFile renderPrice renderTotal ts fs m false).1.log = fs.log ∧
    (checkoutFile renderPrice renderTotal ts fs m false).1.cart = [] ∧
    ∃ t, getTotalAmount fs.cart = .ok t ∧
      (checkoutFile renderPrice renderTotal ts fs m false).2 =
        .ok ("ORD".data ++ ts, t) := by
  have hf2 := getTotalAmount_of_ne_nil fs.cart hf
  refine ⟨?_, ?_, _, hf2, ?_⟩ <;> simp [checkoutFile, hf2]

/-- C5 witness: a one-line cart whose log append fails. -/
theorem failedAppend_clears_cart_witness :
    ((⟨[⟨headphones, 2⟩], some []⟩ : FileState).cart ≠ []) ∧
    ((checkoutFile (fun _ => []) (fun _ => []) "1700000000".data
        ⟨[⟨headphones, 2⟩], some []⟩ .cash false).1.log =
      (⟨[⟨headphones, 2⟩], some []⟩ : FileState).log ∧
    (checkoutFile (fun _ => []) (fun _ => []) "1700000000".data
        ⟨[⟨headphones, 2⟩], some []⟩ .cash false).1.cart = [] ∧
    ∃ t, getTotalAmount (⟨[⟨headphones, 2⟩], some []⟩ : FileState).cart = .ok t ∧
      (checkoutFile (fun _ => []) (fun _ => []) "1700000000".data
          ⟨[⟨headphones, 2⟩], some []⟩ .cash false).2 =
        .ok ("ORD".data ++ "1700000000".data, t)) :=
  ⟨by simp,
    failedAppend_clears_cart (fun _ => []) (fun _ => []) "1700000000".data
      ⟨[⟨headphones, 2⟩], some []⟩ .cash (by simp)⟩

theorem foldl_applyCartOp_orders (ops : List CartOp) (s : MemState) :
    (ops.foldl applyCartOp s).orders = s.orders := by
  induction ops generalizing s with
  | nil => rfl
  | cons op rest ih =>
    cases op <;> simp [List.foldl_cons, applyCartOp, ih]

/-- C9: the order appended by a checkout is a snapshot: any sequence of
subsequent cart mutations (clearing, further adds) leaves the order store —
and in particular the appended order's items and total — unchanged. -/
theorem order_snapshot_frame (s : MemState) (m : PaymentMethod)
    (ops : List CartOp) (h : s.cart ≠ []) :
    (ops.foldl applyCartOp (checkoutMem s m).1).orders = (checkoutMem s m).1.orders ∧
    ∃ t, getTotalAmount s.cart = .ok t ∧
      (ops.foldl applyCartOp (checkoutMem s m).1).orders.getLast? =
        some ⟨s.nextOrderId, methodName m, s.cart, t⟩ := by
  have h2 := getTotalAmount_of_ne_nil s.cart h
  refine ⟨foldl_applyCartOp_orders ops _, _, h2, ?_⟩
  rw [foldl_applyCartOp_orders ops _]
  simp [checkoutMem, h2]

/-- C9 witness: checkout of a one-line cart followed by a clear and a fresh
add. -/
theorem order_snapshot_frame_witness :
    (([⟨headphones, 2⟩] : List CartItem) ≠ []) ∧
    ((([CartOp.clear, CartOp.add mouse 1]).foldl applyCartOp
        (checkoutMem ⟨[⟨headphones, 2⟩], [], 1⟩ .cash).1).orders =
      (checkoutMem ⟨[⟨headphones, 2⟩], [], 1⟩ .cash).1.orders ∧
    ∃ t, getTotalAmount (⟨[⟨headphones, 2⟩], [], 1⟩ : MemState).cart = .ok t ∧
      (([CartOp.clear, CartOp.add mouse 1]).foldl applyCartOp
          (checkoutMem ⟨[⟨headphones, 2⟩], [], 1⟩ .cash).1).orders.getLast? =
        some ⟨(⟨[⟨headphones, 2⟩], [], 1⟩ : MemState).nextOrderId, methodName .cash,
          (⟨[⟨headphones, 2⟩], [], 1⟩ : MemState).cart, t⟩) :=
  ⟨by simp,
    order_snapshot_frame ⟨[⟨headphones, 2⟩], [], 1⟩ .cash
      [CartOp.clear, CartOp.add mouse 1] (by simp)⟩

theorem consecutiveFrom_succ (n : Int) (k : Nat) :
    consecutiveFrom n (k + 1) = n :: consecutiveFrom (n + 1) k := by
  unfold consecutiveFrom
  rw [List.range_succ_eq_map, List.map_cons, List.map_map]
  refine congrArg₂ _ (by simp) (List.map_congr_left ?_)
  intro i _
  simp only [Function.comp_apply]
  push_cast
  ring

theorem runFold_spec (m : PaymentMethod) (baskets : List (List CartItem)) :
    ∀ (s : MemState), (∀ b ∈ baskets, b ≠ []) →
      (baskets.foldl (fun s b => (checkoutMem ⟨b, s.orders, s.nextOrderId⟩ m).1) s).orders.length
          = s.orders.length + baskets.length ∧
      (baskets.foldl (fun s b => (checkoutMem ⟨b, s.orders, s.nextOrderId⟩ m).1) s).orders.map
            OrderRec.orderId
          = s.orders.map OrderRec.orderId ++ consecutiveFrom s.nextOrderId baskets.length ∧
      (baskets.foldl (fun s b => (checkoutMem ⟨b, s.orders, s.nextOrderId⟩ m).1) s).nextOrderId
          = s.nextOrderId + baskets.length := by
  induction baskets with
  | nil => intro s _; simp [consecutiveFrom]
  | cons b rest ih =>
    intro s hb
    have hbne : b ≠ [] := hb b (by simp)
    have h2 := getTotalAmount_of_ne_nil b hbne
    have hstep : (checkoutMem ⟨b, s.orders, s.nextOrderId⟩ m).1 =
        ⟨[], s.orders ++ [⟨s.nextOrderId, methodName m, b, (b.map getTotalPrice).sum⟩],
          s.nextOrderId + 1⟩ := by
      simp [checkoutMem, h2]
    rw [List.foldl_cons, hstep]
    obtain ⟨ihl, ihm, ihn⟩ :=
      ih ⟨[], s.orders ++ [⟨s.nextOrderId, methodName m, b, (b.map getTotalPrice).sum⟩],
          s.nextOrderId + 1⟩ (fun x hx => hb x (by simp [hx]))
    refine ⟨?_, ?_, ?_⟩
    · rw [ihl]; simp; omega
    · rw [ihm]
      simp [List.length_cons, consecutiveFrom_succ]
    · rw [ihn]
      simp only [List.length_cons]
      push_cast
      ring

/-- C10: from the initial state, a run of successful checkouts appends one
order per checkout at index `orderCount` with consecutive ids 1, 2, …; the
store has 100 slots and the append is unchecked, so the append index stays in
bounds exactly as long as fewer than 100 checkouts have completed, and after
the 100th the next append index, 100, lies outside the store. -/
theorem orderStore_capacity (m : PaymentMethod) (baskets : List (List CartItem))
    (h : ∀ b ∈ baskets, b ≠ []) :
    (runCheckouts m baskets).orders.length = baskets.length ∧
    (runCheckouts m baskets).orders.map OrderRec.orderId
      = consecutiveFrom 1 baskets.length ∧
    (appendIndex (runCheckouts m baskets) < ORDER_CAPACITY ↔ baskets.length < 100) ∧
    (baskets.length = 100 →
      appendIndex (runCheckouts m baskets) = 100 ∧
      ¬ appendIndex (runCheckouts m baskets) < ORDER_CAPACITY) := by
  obtain ⟨hl, hm, _⟩ := runFold_spec m baskets memInit h
  have hlen : (runCheckouts m baskets).orders.length = baskets.length := by
    rw [runCheckouts, hl]; simp [memInit]
  refine ⟨hlen, ?_, ?_, ?_⟩
  · rw [runCheckouts, hm]; simp [memInit]
  · rw [appendIndex, hlen, ORDER_CAPACITY]
  · intro h100
    rw [appendIndex, hlen, ORDER_CAPACITY, h100]
    omega

/-- C10 witness: one hundred one-line baskets. -/
theorem orderStore_capacity_witness :
    (∀ b ∈ List.replicate 100 ([⟨headphones, 1⟩] : List CartItem), b ≠ []) ∧
    ((runCheckouts .cash (List.replicate 100 [⟨headphones, 1⟩])).orders.length =
        (List.replicate 100 ([⟨headphones, 1⟩] : List CartItem)).length ∧
      (runCheckouts .cash (List.replicate 100 [⟨headphones, 1⟩])).orders.map
          OrderRec.orderId
        = consecutiveFrom 1 (List.replicate 100 ([⟨headphones, 1⟩] : List CartItem)).length ∧
      (appendIndex (runCheckouts .cash (List.replicate 100 [⟨headphones, 1⟩])) <
          ORDER_CAPACITY ↔
        (List.replicate 100 ([⟨headphones, 1⟩] : List CartItem)).length < 100) ∧
      ((List.replicate 100 ([⟨headphones, 1⟩] : List CartItem)).length = 100 →
        appendIndex (runCheckouts .cash (List.replicate 100 [⟨headphones, 1⟩])) = 100 ∧
        ¬ appendIndex (runCheckouts .cash (List.replicate 100 [⟨headphones, 1⟩])) <
            ORDER_CAPACITY)) :=
  ⟨fun b hb => by rw [List.eq_of_mem_replicate hb]; simp,
    orderStore_capacity .cash (List.replicate 100 [⟨headphones, 1⟩])
      (fun b hb => by rw [List.eq_of_mem_replicate hb]; simp)⟩

theorem flushReader_length (st : ReaderState) :
    (flushReader st).length = readerWeight st := by
  cases st <;> simp [flushReader, readerWeight]

theorem readerWeight_step (st : ReaderState) (l : Str) :
    readerWeight st ≤ readerWeight (readLogLine st l) := by
  cases st with
  | scan done =>
    by_cases h : containsSub logMarker l = true <;> simp [readLogLine, h, readerWeight]
  | inProducts done oid m its =>
    by_cases h : l.isEmpty
    · simp [readLogLine, h, readerWeight]
    · cases hp : parseProductLine l <;> simp [readLogLine, h, hp, readerWeight]
  | awaitTotal done oid m its => simp [readLogLine, readerWeight]

theorem readerWeight_foldl (ls : List Str) : ∀ st : ReaderState,
    readerWeight st ≤ readerWeight (ls.foldl readLogLine st) := by
  induction ls with
  | nil => intro st; simp
  | cons l rest ih =>
    intro st
    exact le_trans (readerWeight_step st l) (ih (readLogLine st l))

theorem foldl_readLogLine_no_marker (ls : List Str) : ∀ done : List ViewedOrder,
    (∀ l ∈ ls, containsSub logMarker l = false) →
    ls.foldl readLogLine (.scan done) = .scan done := by
  induction ls with
  | nil => intro done _; rfl
  | cons l rest ih =>
    intro done h
    have hl : containsSub logMarker l = false := h l (by simp)
    rw [List.foldl_cons]
    have hstep : readLogLine (.scan done) l = .scan done := by
      simp [readLogLine, hl]
    rw [hstep]
    exact ih done (fun x hx => h x (by simp [hx]))

theorem readerWeight_pos_of_marker (ls : List Str) : ∀ st : ReaderState,
    (∃ l ∈ ls, containsSub logMarker l = true) →
    1 ≤ readerWeight (ls.foldl readLogLine st) := by
  induction ls with
  | nil => intro st h; simp at h
  | cons l rest ih =>
    intro st h
    rw [List.foldl_cons]
    by_cases hl : containsSub logMarker l = true
    · refine le_trans ?_ (readerWeight_foldl rest (readLogLine st l))
      cases st with
      | scan done => simp [readLogLine, hl, readerWeight]
      | inProducts done oid m its =>
        by_cases he : l.isEmpty
        · simp [readLogLine, he, readerWeight]
        · cases hp : parseProductLine l <;> simp [readLogLine, he, hp, readerWeight]
      | awaitTotal done oid m its => simp [readLogLine, readerWeight]
    · rcases h with ⟨x, hx, hxm⟩
      rcases List.mem_cons.mp hx with rfl | hx2
      · exact absurd hxm hl
      · exact ih (readLogLine st l) ⟨x, hx2, hxm⟩

/-- The outer loop sets `hasOrders` (equivalently, displays at least one
order) exactly when some line of the file carries the header marker. -/
theorem parseOrders_eq_nil_iff (lines : List Str) :
    parseOrders lines = [] ↔ ∀ l ∈ lines, containsSub logMarker l = false := by
  constructor
  · intro h l hl
    by_contra hm
    have hm2 : containsSub logMarker l = true := by
      cases hc : containsSub logMarker l
      · exact absurd hc hm
      · rfl
    have hw := readerWeight_pos_of_marker lines (.scan []) ⟨l, hl, hm2⟩
    rw [← flushReader_length] at hw
    rw [parseOrders] at h
    rw [h] at hw
    simp at hw
  · intro h
    rw [parseOrders, foldl_readLogLine_no_marker lines [] h]
    rfl


theorem goodIdChar_ne_o (ch : Char) (hc : ch.isUpper = true ∨ ch.isDigit = true) :
    ch ≠ 'o' := by
  rcases hc with h | h <;> intro hh <;> rw [hh] at h <;> revert h <;> decide

theorem findSub_eq_none (pat l : Str)
    (h : ∀ j, pat.isPrefixOf (l.drop j) = false) :
    findSub pat l = none := by
  induction l with
  | nil =>
    have h0 := h 0
    simp only [List.drop_nil] at h0
    cases pat with
    | nil => simp [List.isPrefixOf] at h0
    | cons p ps => rfl
  | cons c cs ih =>
    have h0 := h 0
    simp only [List.drop_zero] at h0
    rw [findSub, if_neg (by rw [h0]; simp)]
    rw [ih (fun j => by simpa using h (j + 1))]
    rfl

theorem isPrefixOf_nil_false (p : Char) (ps : Str) :
    (p :: ps).isPrefixOf [] = false := by
  simp [List.isPrefixOf]

theorem headerLine_length (b : LogBlock) :
    (headerLine b).length = 70 + b.orderId.length + b.method.length := by
  have h6 : (" has been successfully checked out and paid using ".data).length = 50 := by decide
  simp [headerLine, List.length_append, logMarker_length, h6]
  omega

theorem headerLine_no_totalAmount (b : LogBlock)
    (hid : ∀ ch ∈ b.orderId, ch.isUpper = true ∨ ch.isDigit = true)
    (hmT : 'T' ∉ b.method) :
    containsSub "Total Amount: $".data (headerLine b) = false := by
  have hh : headerLine b = logMarker ++ (b.orderId ++
      (" has been successfully checked out and paid using ".data ++ (b.method ++ ['.']))) := by
    simp [headerLine, List.append_assoc]
  rw [containsSub, findSub_eq_none]
  · rfl
  intro j
  cases hp : ("Total Amount: $".data).isPrefixOf ((headerLine b).drop j)
  · rfl
  exfalso
  rcases Nat.lt_or_ge j (headerLine b).length with hjl | hjl
  swap
  · rw [List.drop_eq_nil_of_le hjl] at hp
    rw [isPrefixOf_nil_false] at hp
    exact absurd hp (by simp)
  rw [headerLine_length] at hjl
  have hg := isPrefixOf_get _ _ hp
  have hg0 := hg 0 (by decide)
  rw [List.getElem?_drop] at hg0
  simp only [Nat.add_zero] at hg0
  have hp0 : ("Total Amount: $".data)[0]? = some 'T' := by decide
  rw [hp0] at hg0
  rw [hh] at hg0
  rcases Nat.lt_or_ge j 19 with hjm | hjm
  · rw [getElem?_append_lt logMarker _ j (by rw [logMarker_length]; omega)] at hg0
    have hall : ∀ jj, jj < 19 → logMarker[jj]? ≠ some 'T' := by decide
    exact hall j hjm hg0
  rcases Nat.lt_or_ge j (19 + b.orderId.length) with hji | hji
  · -- id region holds a 'T': the next character cannot be the pattern's 'o'
    have hg1 := hg 1 (by decide)
    rw [List.getElem?_drop] at hg1
    have hp1 : ("Total Amount: $".data)[1]? = some 'o' := by decide
    rw [hp1, hh] at hg1
    rcases Nat.lt_or_ge (j + 1) (19 + b.orderId.length) with hj1 | hj1
    · have hlt : j + 1 - 19 < b.orderId.length := by omega
      have hx : (logMarker ++ (b.orderId ++
            (" has been successfully checked out and paid using ".data ++ (b.method ++ ['.']))))[j + 1]?
          = b.orderId[j + 1 - 19]? := by
        have h1 := getElem?_append_add logMarker (b.orderId ++
          (" has been successfully checked out and paid using ".data ++ (b.method ++ ['.'])))
          (j + 1 - 19)
        rw [logMarker_length] at h1
        have h2 : 19 + (j + 1 - 19) = j + 1 := by omega
        rw [h2] at h1
        rw [h1, getElem?_append_lt b.orderId _ _ hlt]
      rw [hx] at hg1
      have hmem : 'o' ∈ b.orderId := List.getElem?_mem hg1
      exact goodIdChar_ne_o 'o' (hid 'o' hmem) rfl
    · -- j + 1 is the first character of the middle text, a space
      have hj2 : j + 1 = 19 + b.orderId.length := by omega
      have hx : (logMarker ++ (b.orderId ++
            (" has been successfully checked out and paid using ".data ++ (b.method ++ ['.']))))[j + 1]?
          = (" has been successfully checked out and paid using ".data ++ (b.method ++ ['.']))[0]? := by
        have h1 := getElem?_append_add2 logMarker b.orderId
          (" has been successfully checked out and paid using ".data ++ (b.method ++ ['.'])) 0
        rw [logMarker_length] at h1
        have h2 : 19 + b.orderId.length + 0 = j + 1 := by omega
        rw [h2] at h1
        rw [h1]
      rw [hx] at hg1
      have : (" has been successfully checked out and paid using ".data
          ++ (b.method ++ ['.']))[0]? = some ' ' := by
        rw [getElem?_append_lt _ _ 0 (by decide)]
        decide
      rw [this] at hg1
      exact absurd hg1 (by decide)
  rcases Nat.lt_or_ge j (19 + b.orderId.length + 50) with hjd | hjd
  · have hi : j - (19 + b.orderId.length) < 50 := by omega
    have hx : (logMarker ++ (b.orderId ++
          (" has been successfully checked out and paid using ".data ++ (b.method ++ ['.']))))[j]?
        = (" has been successfully checked out and paid using ".data)[j - (19 + b.orderId.length)]? := by
      have h1 := getElem?_append_add2 logMarker b.orderId
        (" has been successfully checked out and paid using ".data ++ (b.method ++ ['.']))
        (j - (19 + b.orderId.length))
      rw [logMarker_length] at h1
      have h2 : 19 + b.orderId.length + (j - (19 + b.orderId.length)) = j := by omega
      rw [h2] at h1
      rw [h1, getElem?_append_lt _ _ _ (by
        have h7 : (" has been successfully checked out and paid using ".data).length = 50 := by
          decide
        rw [h7]; omega)]
    rw [hx] at hg0
    have hall : ∀ ii, ii < 50 →
        (" has been successfully checked out and paid using ".data)[ii]? ≠ some 'T' := by decide
    exact hall (j - (19 + b.orderId.length)) hi hg0
  · -- method region or the final dot
    have hx : (logMarker ++ (b.orderId ++
          (" has been successfully checked out and paid using ".data ++ (b.method ++ ['.']))))[j]?
        = (b.method ++ ['.'])[j - (19 + b.orderId.length + 50)]? := by
      have h1 := getElem?_append_add3 logMarker b.orderId
        " has been successfully checked out and paid using ".data (b.method ++ ['.'])
        (j - (19 + b.orderId.length + 50))
      rw [logMarker_length] at h1
      have h7 : (" has been successfully checked out and paid using ".data).length = 50 := by
        decide
      rw [h7] at h1
      have h2 : 19 + b.orderId.length + 50 + (j - (19 + b.orderId.length + 50)) = j := by omega
      rw [h2] at h1
      rw [h1]
    rw [hx] at hg0
    rcases Nat.lt_or_ge (j - (19 + b.orderId.length + 50)) b.method.length with hjp | hjp
    · rw [getElem?_append_lt b.method _ _ hjp] at hg0
      exact hmT (List.getElem?_mem hg0)
    · have hj3 : j - (19 + b.orderId.length + 50) = b.method.length := by omega
      rw [hj3] at hg0
      have hdx := getElem?_append_add b.method (['.'] : Str) 0
      simp only [Nat.add_zero] at hdx
      rw [hdx] at hg0
      exact absurd hg0 (by decide)

theorem parseOrders_two_blocks (b1 b2 : LogBlock)
    (h1ne : b1.orderId ≠ [])
    (h1id : ∀ ch ∈ b1.orderId, ch.isUpper = true ∨ ch.isDigit = true)
    (h1len : b1.orderId.length < 2 ^ 32)
    (h1mdot : ∀ ch ∈ b1.method, ch ≠ '.')
    (h1mlen : b1.method.length < 2 ^ 32)
    (h1fs : ∀ f ∈ b1.itemLines, goodField f)
    (h1tot : '\t' ∉ b1.total)
    (h2id : ∀ ch ∈ b2.orderId, ch.isUpper = true ∨ ch.isDigit = true)
    (h2mT : 'T' ∉ b2.method)
    (h2items : ∀ f ∈ b2.itemLines, containsSub logMarker (itemLine f) = false)
    (h2tot : containsSub logMarker ("Total Amount: $".data ++ b2.total) = false) :
    parseOrders (blockLines b1 ++ blockLines b2)
      = [⟨b1.orderId, b1.method, b1.itemLines, none⟩] := by
  rw [parseOrders, List.foldl_append,
    foldl_blockLines b1 [] h1ne h1id h1len h1mdot h1mlen h1fs h1tot]
  rw [blockLines, List.foldl_cons]
  have hstep : readLogLine (.awaitTotal [] b1.orderId b1.method b1.itemLines) (headerLine b2)
      = .scan [⟨b1.orderId, b1.method, b1.itemLines, none⟩] := by
    rw [readLogLine, headerLine_no_totalAmount b2 h2id h2mT]
    simp
  rw [hstep]
  have hrest : ∀ l ∈ (b2.itemLines.map itemLine
      ++ ["Total Amount: $".data ++ b2.total, []]), containsSub logMarker l = false := by
    intro l hl
    rcases List.mem_append.mp hl with hml | hmr
    · obtain ⟨f, hf, rfl⟩ := List.mem_map.mp hml
      exact h2items f hf
    · rcases List.mem_cons.mp hmr with rfl | hmr2
      · exact h2tot
      · rcases List.mem_singleton.mp hmr2 with rfl
        decide
  rw [foldl_readLogLine_no_marker _ _ hrest]
  rfl

set_option maxRecDepth 16384 in
/-- C6: `viewOrders` of `src/1.cpp` fails with `NoOrders` exactly when no
line of the file carries the header marker — an absent file, an empty file
and a file with zero order blocks alike — and the in-memory variant fails
exactly on an empty store; but for any two well-formed serialized orders the
read loop returns only the first: the total check after the first block's
blank line consumes the second block's header, so the second entry is
dropped instead of being returned after the first. -/
theorem viewOrders_drops_second_entry :
    viewOrdersFile none = .error .noOrders ∧
    (∀ lines : List Str,
      viewOrdersFile (some lines) = .error .noOrders ↔
        ∀ l ∈ lines, containsSub logMarker l = false) ∧
    (∀ os : List OrderRec, viewOrdersMem os = .error .noOrders ↔ os = []) ∧
    (∀ b1 b2 : LogBlock,
      b1.orderId ≠ [] →
      (∀ ch ∈ b1.orderId, ch.isUpper = true ∨ ch.isDigit = true) →
      b1.orderId.length < 2 ^ 32 →
      (∀ ch ∈ b1.method, ch ≠ '.') →
      b1.method.length < 2 ^ 32 →
      (∀ f ∈ b1.itemLines, goodField f) →
      '\t' ∉ b1.total →
      (∀ ch ∈ b2.orderId, ch.isUpper = true ∨ ch.isDigit = true) →
      'T' ∉ b2.method →
      (∀ f ∈ b2.itemLines, containsSub logMarker (itemLine f) = false) →
      containsSub logMarker ("Total Amount: $".data ++ b2.total) = false →
      parseOrders (blockLines b1 ++ blockLines b2)
        = [⟨b1.orderId, b1.method, b1.itemLines, none⟩]) ∧
    viewOrdersFile (some (blockLines demoBlock1 ++ blockLines demoBlock2)) =
      .ok [⟨demoBlock1.orderId, demoBlock1.method, demoBlock1.itemLines, none⟩] ∧
    (parseOrders (blockLines demoBlock1 ++ blockLines demoBlock2)).length = 1 := by
  refine ⟨rfl, ?_, ?_, ?_, rfl, rfl⟩
  · intro lines
    rw [← parseOrders_eq_nil_iff]
    simp only [viewOrdersFile]
    rcases hp : parseOrders lines with _ | ⟨o, os⟩ <;> simp
  · intro os
    cases os <;> simp [viewOrdersMem]
  · intro b1 b2 ha1 ha2 ha3 ha4 ha5 ha6 ha7 hb1 hb2 hb3 hb4
    exact parseOrders_two_blocks b1 b2 ha1 ha2 ha3 ha4 ha5 ha6 ha7 hb1 hb2 hb3 hb4

/-- C6 witness: the two example blocks satisfy the hypotheses, and their
two-block log views as the first order alone. -/
theorem viewOrders_drops_second_entry_witness :
    (demoBlock1.orderId ≠ [] ∧
      (∀ ch ∈ demoBlock1.orderId, ch.isUpper = true ∨ ch.isDigit = true) ∧
      demoBlock1.orderId.length < 2 ^ 32 ∧
      (∀ ch ∈ demoBlock1.method, ch ≠ '.') ∧
      demoBlock1.method.length < 2 ^ 32 ∧
      (∀ f ∈ demoBlock1.itemLines, goodField f) ∧
      '\t' ∉ demoBlock1.total ∧
      (∀ ch ∈ demoBlock2.orderId, ch.isUpper = true ∨ ch.isDigit = true) ∧
      'T' ∉ demoBlock2.method ∧
      (∀ f ∈ demoBlock2.itemLines, containsSub logMarker (itemLine f) = false) ∧
      containsSub logMarker ("Total Amount: $".data ++ demoBlock2.total) = false) ∧
    parseOrders (blockLines demoBlock1 ++ blockLines demoBlock2)
      = [⟨demoBlock1.orderId, demoBlock1.method, demoBlock1.itemLines, none⟩] :=
  ⟨⟨by decide, by decide, by decide, by decide, by decide, by decide, by decide,
      by decide, by decide, by decide, by decide⟩,
    (viewOrders_drops_second_entry.2.2.2.1) demoBlock1 demoBlock2 (by decide) (by decide)
      (by decide) (by decide) (by decide) (by decide) (by decide) (by decide) (by decide)
      (by decide) (by decide)⟩

set_option maxRecDepth 16384 in
/-- C7: re-parsing any well-formed serialized order (digits-or-uppercase
order id, dot-free method, tab-free item fields and total) recovers its order
id, payment method and item fields, but never its total: the reader consumes
the `"Total Amount: $…"` line inside the product loop (it is non-empty),
silently skips it for lack of tabs, and the subsequent total check reads past
the blank line — so the recorded total is never reproduced, as the §8 example
evaluates concretely. -/
theorem roundTrip_loses_total :
    (∀ b : LogBlock,
      b.orderId ≠ [] →
      (∀ ch ∈ b.orderId, ch.isUpper = true ∨ ch.isDigit = true) →
      b.orderId.length < 2 ^ 32 →
      (∀ ch ∈ b.method, ch ≠ '.') →
      b.method.length < 2 ^ 32 →
      (∀ f ∈ b.itemLines, goodField f) →
      '\t' ∉ b.total →
      parseOrders (blockLines b) = [⟨b.orderId, b.method, b.itemLines, none⟩]) ∧
    parseOrders (blockLines demoBlock1) =
      [⟨demoBlock1.orderId, demoBlock1.method, demoBlock1.itemLines, none⟩] ∧
    demoBlock1.total = "199.98".data ∧
    (parseOrders (blockLines demoBlock1)).map ViewedOrder.totalLine = [none] :=
  ⟨fun b h1 h2 h3 h4 h5 h6 h7 => parseOrders_blockLines b h1 h2 h3 h4 h5 h6 h7,
    rfl, rfl, rfl⟩

/-- C7 witness: the §8 example block, whose fields satisfy the round-trip
hypotheses, re-parses to itself minus the total. -/
theorem roundTrip_loses_total_witness :
    (demoBlock1.orderId ≠ [] ∧
      (∀ ch ∈ demoBlock1.orderId, ch.isUpper = true ∨ ch.isDigit = true) ∧
      demoBlock1.orderId.length < 2 ^ 32 ∧
      (∀ ch ∈ demoBlock1.method, ch ≠ '.') ∧
      demoBlock1.method.length < 2 ^ 32 ∧
      (∀ f ∈ demoBlock1.itemLines, goodField f) ∧
      '\t' ∉ demoBlock1.total) ∧
    parseOrders (blockLines demoBlock1) =
      [⟨demoBlock1.orderId, demoBlock1.method, demoBlock1.itemLines, none⟩] :=
  ⟨⟨by decide, by decide, by decide, by decide, by decide, by decide, by decide⟩,
    roundTrip_loses_total.1 demoBlock1 (by decide) (by decide) (by decide) (by decide)
      (by decide) (by decide) (by decide)⟩

/-- C8: `src/1.cpp` resolves payment indices 1..3 to the three strategies and
turns any other index into a recoverable `ECommerceException` caught at the
menu-iteration boundary; but `src/tempCodeRunnerFile.cpp` performs no range
check, leaves the strategy null for index 4, and its settlement step
dereferences that null strategy (`none`) instead of reporting an error. -/
theorem payment_out_of_range_unchecked :
    resolvePaymentChecked 0 = .error (.generic "Invalid payment method. Please select 1-3.") ∧
    resolvePaymentChecked 4 = .error (.generic "Invalid payment method. Please select 1-3.") ∧
    resolvePaymentChecked 1 = .ok .cash ∧
    resolvePaymentChecked 2 = .ok .card ∧
    resolvePaymentChecked 3 = .ok .gcash ∧
    resolvePaymentUnchecked 1 = some .cash ∧
    resolvePaymentUnchecked 2 = some .card ∧
    resolvePaymentUnchecked 3 = some .gcash ∧
    resolvePaymentUnchecked 4 = none ∧
    tempPaymentStep ⟨[⟨headphones, 2⟩], [], 1⟩ 4 = none :=
  ⟨rfl, rfl, rfl, rfl, rfl, rfl, rfl, rfl, rfl, rfl⟩
